import Mathlib

/-!
# Verification of the CalendarHourCalc event summarization pipeline

Shallow embedding of the pure core of `src/main.rs` of the
CalendarHourCalc repository: timestamp normalization
(`hypentate_dttime`), per-event start/end marker extraction, event
summary construction, calendar flattening with per-event skipping and
fatal parse errors, the month/year filter stage, the day-of-month sort
stage, duration aggregation (`calc_total_duration`) and duration
formatting (`fmt_duration`).

Rust `u32` fields are embedded as `Nat`, `i32`/`i64` as `Int` (with
truncating division `Int.tdiv` / remainder `Int.tmod` where the Rust
code uses `/` and `%` on signed integers).  Fallible computation
(`Result` in the Rust code) is embedded as `Except`.
-/

namespace CalendarHourCalc

/-- Rust `format!("{:02}", n)` for an unsigned integer: decimal digits,
zero-padded on the left to a minimum width of 2. -/
def padNat2 (n : Nat) : String :=
  if n < 10 then "0" ++ Nat.repr n else Nat.repr n

/-- Rust `format!("{}", n)` (plain `Display`) for a signed integer. -/
def intRepr (n : Int) : String :=
  if n < 0 then "-" ++ Nat.repr n.natAbs else Nat.repr n.natAbs

/-- Rust `format!("{:02}", n)` for a signed integer: the minimum width 2
counts the sign, and a negative number's digits are at least one
character, so a negative number is rendered as `-` followed by its
unpadded decimal digits. -/
def padInt2 (n : Int) : String :=
  if n < 0 then "-" ++ Nat.repr n.natAbs else padNat2 n.natAbs

/-- Model of `fmt_duration` (src/main.rs lines 269-276): format a duration in
seconds as HH:MM:SS.  Rust `/` and `%` on `i64` are truncation toward
zero and the dividend-signed remainder, i.e. `Int.tdiv` and `Int.tmod`. -/
def fmt_duration (secs : Int) : String :=
  padInt2 ((secs.tdiv 60).tdiv 60) ++ ":" ++
  padInt2 ((secs.tdiv 60).tmod 60) ++ ":" ++
  padInt2 (secs.tmod 60)

/-- The loop body of `hypentate_dttime` (src/main.rs lines 280-295):
push the character at index `idx`, then `-` when `idx` is 3 or 5, then
`:` when `idx` is 10 or 12; continue with the rest of the characters. -/
def hypentateFrom : Nat → List Char → List Char
  | _, [] => []
  | idx, c :: rest =>
    c :: ((if idx = 3 ∨ idx = 5 then ['-'] else []) ++
          ((if idx = 10 ∨ idx = 12 then [':'] else []) ++
           hypentateFrom (idx + 1) rest))

/-- Model of `hypentate_dttime` (src/main.rs lines 280-295): insert hyphens and
colons into the compact date-time string,
e.g. `20220921T151530Z` becomes `2022-09-21T15:15:30Z`. -/
def hypentate_dttime (input : String) : String :=
  ⟨hypentateFrom 0 input.data⟩

/-- Insert `c` immediately after the character at 0-indexed position
`pos`, leaving the list unchanged when there is no such character.
Spec-side description used to state what the normalizer does. -/
def insertAfter (c : Char) : Nat → List Char → List Char
  | _, [] => []
  | 0, x :: rest => x :: c :: rest
  | pos + 1, x :: rest => x :: insertAfter c pos rest

/-- Spec-side form of the normalizer: the input with a hyphen inserted
immediately after the characters at positions 3 and 5 and a colon
inserted immediately after the characters at positions 10 and 12
(insertions performed from the rightmost original position leftwards, so
each position refers to the original input). -/
def hypentateSpec (s : String) : String :=
  ⟨insertAfter '-' 3 (insertAfter '-' 5 (insertAfter ':' 10 (insertAfter ':' 12 s.data)))⟩

theorem hypentateFrom_ge13 (l : List Char) : ∀ idx : Nat, 13 ≤ idx → hypentateFrom idx l = l := by
  induction l with
  | nil => intro idx _; rfl
  | cons c rest ih =>
    intro idx h
    have h3 : ¬(idx = 3 ∨ idx = 5) := by omega
    have h10 : ¬(idx = 10 ∨ idx = 12) := by omega
    simp [hypentateFrom, h3, h10, ih (idx + 1) (by omega)]

theorem hypentate_eq_hypentateSpec (s : String) : hypentate_dttime s = hypentateSpec s := by
  obtain ⟨l⟩ := s
  show String.mk (hypentateFrom 0 l) = String.mk (insertAfter '-' 3 (insertAfter '-' 5 (insertAfter ':' 10 (insertAfter ':' 12 l))))
  rcases l with _ | ⟨a0, l⟩; · rfl
  rcases l with _ | ⟨a1, l⟩; · rfl
  rcases l with _ | ⟨a2, l⟩; · rfl
  rcases l with _ | ⟨a3, l⟩; · rfl
  rcases l with _ | ⟨a4, l⟩; · rfl
  rcases l with _ | ⟨a5, l⟩; · rfl
  rcases l with _ | ⟨a6, l⟩; · rfl
  rcases l with _ | ⟨a7, l⟩; · rfl
  rcases l with _ | ⟨a8, l⟩; · rfl
  rcases l with _ | ⟨a9, l⟩; · rfl
  rcases l with _ | ⟨a10, l⟩; · rfl
  rcases l with _ | ⟨a11, l⟩; · rfl
  rcases l with _ | ⟨a12, l⟩; · rfl
  simp [hypentateFrom, insertAfter, hypentateFrom_ge13]

theorem length_insertAfter (c : Char) : ∀ (pos : Nat) (l : List Char),
    (insertAfter c pos l).length = if pos < l.length then l.length + 1 else l.length := by
  intro pos
  induction pos with
  | zero =>
    intro l
    cases l with
    | nil => rfl
    | cons x rest => simp [insertAfter]
  | succ p ih =>
    intro l
    cases l with
    | nil => rfl
    | cons x rest =>
      simp only [insertAfter, List.length_cons, ih rest]
      by_cases h : p < rest.length
      · rw [if_pos h, if_pos (by omega)]
      · rw [if_neg h, if_neg (by omega)]

/-- C5: for every non-empty input token, `hypentate_dttime` returns a new
string equal to the input with a hyphen inserted immediately after the
characters at 0-indexed positions 3 and 5 and a colon inserted immediately
after the characters at 0-indexed positions 10 and 12, every original
character preserved in order and nothing else changed; in particular it
maps "20220921T151530Z" to "2022-09-21T15:15:30Z".  (It is a total Lean
function, so it never fails.) -/
theorem hypentate_dttime_inserts_separators (s : String) (hne : s ≠ "") :
    hypentate_dttime s = hypentateSpec s ∧
    hypentate_dttime "20220921T151530Z" = "2022-09-21T15:15:30Z" :=
  ⟨hypentate_eq_hypentateSpec s, by decide⟩

/-- Witness for `hypentate_dttime_inserts_separators` at the concrete
input "20220921T151530Z". -/
theorem hypentate_dttime_inserts_separators_witness :
    hypentate_dttime "20220921T151530Z" = hypentateSpec "20220921T151530Z" ∧
    hypentate_dttime "20220921T151530Z" = "2022-09-21T15:15:30Z" :=
  hypentate_dttime_inserts_separators "20220921T151530Z" (by decide)

/-- C10: the normalizer is total over every string, not only the expected
at-least-13-character tokens: the empty string maps to the empty string,
and an input shorter than 13 characters is still rewritten by the same
insertion rule, inserting only those separators whose trigger positions
(3, 5, 10, 12) are within the input's length. -/
theorem hypentate_dttime_total_on_short_inputs (s : String) (hshort : s.length < 13) :
    hypentate_dttime "" = "" ∧
    hypentate_dttime s = hypentateSpec s ∧
    (hypentate_dttime s).length = s.length
      + ((if 3 < s.length then 1 else 0) + (if 5 < s.length then 1 else 0)
         + (if 10 < s.length then 1 else 0) + (if 12 < s.length then 1 else 0)) := by
  refine ⟨rfl, hypentate_eq_hypentateSpec s, ?_⟩
  rw [hypentate_eq_hypentateSpec s]
  obtain ⟨l⟩ := s
  simp only [hypentateSpec, String.length, length_insertAfter]
  split_ifs <;> omega

/-- Witness for `hypentate_dttime_total_on_short_inputs` at the concrete
4-character input "2022". -/
theorem hypentate_dttime_total_on_short_inputs_witness :
    hypentate_dttime "" = "" ∧
    hypentate_dttime "2022" = hypentateSpec "2022" ∧
    (hypentate_dttime "2022").length = ("2022" : String).length
      + ((if 3 < ("2022" : String).length then 1 else 0)
         + (if 5 < ("2022" : String).length then 1 else 0)
         + (if 10 < ("2022" : String).length then 1 else 0)
         + (if 12 < ("2022" : String).length then 1 else 0)) :=
  hypentate_dttime_total_on_short_inputs "2022" (by decide)

/-- One property of a raw ical event: a name and an optional value
(the `ical` crate's `Property`, consumed read-only by `report`). -/
structure Property where
  name : String
  value : Option String
deriving DecidableEq

/-- A raw parsed event: its list of properties (the only part of the
`ical` crate's event that `report` reads). -/
structure IcalEvent where
  properties : List Property
deriving DecidableEq

/-- A raw parsed calendar: its list of events. -/
structure IcalCalendar where
  events : List IcalEvent
deriving DecidableEq

/-- Marker extraction as performed in `report` (src/main.rs lines
141-159) for both `DTSTART` and `DTEND`: find the first property with
the given name; return its value when the property is present and has a
value, otherwise signal missing (`none`), which makes the caller skip
the event. -/
def getProp (event : IcalEvent) (propName : String) : Option String :=
  match event.properties.find? (fun prop => prop.name == propName) with
  | some x =>
    match x.value with
    | some v => some v
    | none => none
  | none => none

/-- The result of `chrono::DateTime::parse_from_rfc3339`: the literal
calendar/clock components written in the string together with its UTC
offset in seconds.  `day`, `month`, `year`, `hour`, `minute` accessors
of `DateTime<FixedOffset>` return exactly these local components. -/
structure ParsedDateTime where
  year : Int
  month : Nat
  day : Nat
  hour : Nat
  minute : Nat
  second : Nat
  offsetSec : Int
deriving DecidableEq

/-- Gregorian leap-year test. -/
def isLeapYear (y : Int) : Bool :=
  y % 4 = 0 && (y % 100 ≠ 0 || y % 400 = 0)

/-- Number of days in the given month of the given year. -/
def daysInMonth (y : Int) (m : Nat) : Nat :=
  if m = 2 then (if isLeapYear y then 29 else 28)
  else if m = 4 ∨ m = 6 ∨ m = 9 ∨ m = 11 then 30
  else 31

/-- Numeric value of a decimal digit character. -/
def digitVal (c : Char) : Nat := c.toNat - '0'.toNat

/-- Two decimal digit characters as a number. -/
def twoDigits (a b : Char) : Nat := 10 * digitVal a + digitVal b

/-- The timezone part of an RFC 3339 timestamp: `Z`/`z` or `±HH:MM`,
returned as an offset in seconds east of UTC. -/
def parseOffset : List Char → Option Int
  | ['Z'] => some 0
  | ['z'] => some 0
  | [sgn, h1, h2, ':', m1, m2] =>
    if (sgn = '+' ∨ sgn = '-') ∧ h1.isDigit ∧ h2.isDigit ∧ m1.isDigit ∧ m2.isDigit then
      let h := twoDigits h1 h2
      let m := twoDigits m1 m2
      if h ≤ 23 ∧ m ≤ 59 then
        some (if sgn = '-' then -((h * 3600 + m * 60 : Nat) : Int) else ((h * 3600 + m * 60 : Nat) : Int))
      else none
    else none
  | _ => none

/-- Model of `chrono::DateTime::parse_from_rfc3339` (external crate):
accepts `YYYY-MM-DDTHH:MM:SS` followed by `Z` or `±HH:MM`, with a valid
calendar date and clock time, and returns the parsed components;
everything else is a parse error (`none`).  Fractional seconds and leap
seconds are not modelled: the strings produced by `hypentate_dttime`
from compact calendar tokens never contain them. -/
def parse_from_rfc3339 (s : String) : Option ParsedDateTime :=
  match s.data with
  | y1 :: y2 :: y3 :: y4 :: '-' :: mo1 :: mo2 :: '-' :: d1 :: d2 :: t
      :: h1 :: h2 :: ':' :: mi1 :: mi2 :: ':' :: s1 :: s2 :: rest =>
    if (t = 'T' ∨ t = 't' ∨ t = ' ') ∧ y1.isDigit ∧ y2.isDigit ∧ y3.isDigit ∧ y4.isDigit
        ∧ mo1.isDigit ∧ mo2.isDigit ∧ d1.isDigit ∧ d2.isDigit
        ∧ h1.isDigit ∧ h2.isDigit ∧ mi1.isDigit ∧ mi2.isDigit ∧ s1.isDigit ∧ s2.isDigit then
      let year : Int := (1000 * digitVal y1 + 100 * digitVal y2 + 10 * digitVal y3 + digitVal y4 : Nat)
      let month := twoDigits mo1 mo2
      let day := twoDigits d1 d2
      let hour := twoDigits h1 h2
      let minute := twoDigits mi1 mi2
      let second := twoDigits s1 s2
      match parseOffset rest with
      | some off =>
        if 1 ≤ month ∧ month ≤ 12 ∧ 1 ≤ day ∧ day ≤ daysInMonth year month
            ∧ hour ≤ 23 ∧ minute ≤ 59 ∧ second ≤ 59 then
          some ⟨year, month, day, hour, minute, second, off⟩
        else none
      | none => none
    else none
  | _ => none

/-- Days since 1970-01-01 of a civil date (Howard Hinnant's
`days_from_civil`, as used by chrono's internal date representation). -/
def daysFromCivil (y : Int) (m : Nat) (d : Nat) : Int :=
  let yAdj : Int := if m ≤ 2 then y - 1 else y
  let era : Int := yAdj.fdiv 400
  let yoe : Int := yAdj - era * 400
  let doy : Nat := (153 * (if 2 < m then m - 3 else m + 9) + 2) / 5 + d - 1
  let doe : Int := yoe * 365 + yoe.fdiv 4 - yoe.fdiv 100 + (doy : Nat)
  era * 146097 + doe - 719468

/-- Seconds since the Unix epoch of a parsed instant, accounting for its
UTC offset; chrono's `DateTime` subtraction returns the difference of
these values. -/
def toTimestamp (dt : ParsedDateTime) : Int :=
  daysFromCivil dt.year dt.month dt.day * 86400
    + (dt.hour * 3600 + dt.minute * 60 + dt.second : Nat) - dt.offsetSec

/-- Model of `EventSummary` (src/main.rs lines 16-32): the per-event record built
by `report`.  `date_start`/`month_start` are `u32` (here `Nat`),
`year_start` is `i32` (here `Int`), `duration_sec` is `i64` (here `Int`). -/
structure EventSummary where
  date : String
  time : String
  duration : String
  date_start : Nat
  month_start : Nat
  year_start : Int
  duration_sec : Int
deriving DecidableEq

/-- The summary construction of `report` (src/main.rs lines 167-201),
given the two parsed instants: the date label uses the single-date form
exactly when the two `day()` (day-of-month) components are equal, the
time label drops seconds, and the duration is `end - start` in seconds. -/
def buildSummary (start dtEnd : ParsedDateTime) : EventSummary :=
  let date :=
    if start.day = dtEnd.day then
      padNat2 start.day ++ "-" ++ padNat2 start.month ++ "-" ++ intRepr start.year
    else
      padNat2 start.day ++ "-" ++ padNat2 start.month ++ "-" ++ intRepr start.year
        ++ " - " ++ padNat2 dtEnd.day ++ "-" ++ padNat2 dtEnd.month ++ "-" ++ intRepr dtEnd.year
  let time := padNat2 start.hour ++ ":" ++ padNat2 start.minute
        ++ " - " ++ padNat2 dtEnd.hour ++ ":" ++ padNat2 dtEnd.minute
  let durationSec := toTimestamp dtEnd - toTimestamp start
  { date := date, time := time, duration := fmt_duration durationSec,
    date_start := start.day, month_start := start.month, year_start := start.year,
    duration_sec := durationSec }

/-- The single error that aborts `report`'s event mapping: a present
marker token failed to parse (chrono's parse error, propagated by `?`). -/
inductive ReportError where
  | timestampParse
deriving DecidableEq

/-- Processing of one raw event inside `report` (src/main.rs lines
139-202): a missing start or end marker skips the event (`Ok(None)`),
a present marker whose normalized token fails to parse aborts with an
error, and otherwise the summary is built. -/
def processEvent (event : IcalEvent) : Except ReportError (Option EventSummary) :=
  match getProp event "DTSTART" with
  | none => .ok none
  | some dtstart =>
    match getProp event "DTEND" with
    | none => .ok none
    | some dtend =>
      match parse_from_rfc3339 (hypentate_dttime dtstart) with
      | none => .error .timestampParse
      | some start =>
        match parse_from_rfc3339 (hypentate_dttime dtend) with
        | none => .error .timestampParse
        | some dtEnd => .ok (some (buildSummary start dtEnd))

/-- Model of `collect::<Result<Vec<_>>>()` over the per-event results of one
calendar (src/main.rs line 203): stop at the first event error,
otherwise collect the per-event outcomes in order. -/
def collectEventResults : List IcalEvent → Except ReportError (List (Option EventSummary))
  | [] => .ok []
  | e :: rest =>
    match processEvent e with
    | .error err => .error err
    | .ok s =>
      match collectEventResults rest with
      | .error err => .error err
      | .ok l => .ok (s :: l)

/-- Per-calendar summaries (src/main.rs lines 136-207): the collected
per-event outcomes with the skipped (`None`) events filtered out. -/
def calendarSummaries (cal : IcalCalendar) : Except ReportError (List EventSummary) :=
  match collectEventResults cal.events with
  | .error err => .error err
  | .ok l => .ok (l.filterMap id)

/-- Model of `collect::<Result<Vec<_>>>()` over the calendars (src/main.rs lines
130-209). -/
def collectCalendars : List IcalCalendar → Except ReportError (List (List EventSummary))
  | [] => .ok []
  | c :: rest =>
    match calendarSummaries c with
    | .error err => .error err
    | .ok l =>
      match collectCalendars rest with
      | .error err => .error err
      | .ok ls => .ok (l :: ls)

/-- The flat event sequence of `report` (src/main.rs lines 130-212):
all calendars' summaries concatenated in order. -/
def flattenEvents (cals : List IcalCalendar) : Except ReportError (List EventSummary) :=
  match collectCalendars cals with
  | .error err => .error err
  | .ok ls => .ok ls.flatten

/-- The month/year filter stage of `report` (src/main.rs lines 214-222):
first retain events matching the optional month filter, then events
matching the optional year filter (`Option::map` + `unwrap_or(true)`). -/
def filterStage (month : Option Nat) (year : Option Int) (events : List EventSummary) : List EventSummary :=
  (events.filter (fun event => (month.map (fun m => event.month_start == m)).getD true)).filter
    (fun event => (year.map (fun y => event.year_start == y)).getD true)

/-- The sort stage of `report` (src/main.rs line 225):
`events.sort_by(|a, b| a.date_start.cmp(&b.date_start))`.  Rust's
`sort_by` is a stable sort, embedded as Lean's stable `List.mergeSort`
with the comparator `date_start ≤ date_start`. -/
def sortStage (events : List EventSummary) : List EventSummary :=
  events.mergeSort (fun a b => a.date_start ≤ b.date_start)

/-- The pure core of `report` (src/main.rs lines 116-233): flatten the
calendars into event summaries (skipping marker-less events, aborting on
a timestamp parse failure), filter by the optional month and year, and
sort by day-of-month. -/
def reportSummaries (cals : List IcalCalendar) (month : Option Nat) (year : Option Int) :
    Except ReportError (List EventSummary) :=
  match flattenEvents cals with
  | .error err => .error err
  | .ok events => .ok (sortStage (filterStage month year events))

/-- Model of `calc_total_duration` (src/main.rs lines 235-237): the sum of the
events' `duration_sec` fields. -/
def calc_total_duration (events : List EventSummary) : Int :=
  (events.map (fun x => x.duration_sec)).sum

/-- C1: evidence of the day-of-month-only comparison in the date label.
For the event with start `2022-01-05T10:00:00+00:00` and end
`2022-03-05T10:00:00+00:00` — two different calendar dates sharing the
day-of-month 5 — `report` builds the single-date label `"05-01-2022"`
instead of a range label, because the code compares only
`start.day() == end.day()` even though its own comment says the label
accounts for a date spanning multiple days. -/
theorem date_label_single_despite_different_dates :
    parse_from_rfc3339 (hypentate_dttime "20220105T100000Z")
        = some ⟨2022, 1, 5, 10, 0, 0, 0⟩ ∧
    parse_from_rfc3339 (hypentate_dttime "20220305T100000Z")
        = some ⟨2022, 3, 5, 10, 0, 0, 0⟩ ∧
    (processEvent ⟨[⟨"DTSTART", some "20220105T100000Z"⟩, ⟨"DTEND", some "20220305T100000Z"⟩]⟩
        = .ok (some (buildSummary ⟨2022, 1, 5, 10, 0, 0, 0⟩ ⟨2022, 3, 5, 10, 0, 0, 0⟩))) ∧
    (buildSummary ⟨2022, 1, 5, 10, 0, 0, 0⟩ ⟨2022, 3, 5, 10, 0, 0, 0⟩).date = "05-01-2022" ∧
    ¬ (((2022 : Int), (1 : Nat), (5 : Nat)) = ((2022 : Int), (3 : Nat), (5 : Nat))) :=
  ⟨by decide, by decide, rfl, by decide, by decide⟩

/-- C2 counterexample: a `DTSTART` property whose value is the empty
string is not signalled as missing: extraction returns `some ""` rather
than `none`, and the event is not dropped but aborts the report with a
timestamp parse error. -/
theorem empty_marker_value_not_missing :
    getProp ⟨[⟨"DTSTART", some ""⟩]⟩ "DTSTART" = some "" ∧
    ¬ (getProp ⟨[⟨"DTSTART", some ""⟩]⟩ "DTSTART" = none) ∧
    processEvent ⟨[⟨"DTSTART", some ""⟩, ⟨"DTEND", some "20220921T151530Z"⟩]⟩
      = .error .timestampParse :=
  ⟨rfl, by decide, rfl⟩

/-- C2 amended: the property extraction returns the associated value
whenever the target property is present with a value — there is no
emptiness check — so an event whose marker value is the empty string is
not dropped as missing; it is processed further and its empty token then
fails timestamp parsing, which is fatal. -/
theorem getProp_returns_any_present_value (props : List Property) (nm : String)
    (p : Property) (v : String)
    (hfind : props.find? (fun q => q.name == nm) = some p)
    (hval : p.value = some v) :
    getProp ⟨props⟩ nm = some v ∧
    processEvent ⟨[⟨"DTSTART", some ""⟩, ⟨"DTEND", some "20220921T151530Z"⟩]⟩
      = .error .timestampParse := by
  refine ⟨?_, rfl⟩
  simp [getProp, hfind, hval]

/-- Witness for `getProp_returns_any_present_value` at a concrete
property list whose `DTSTART` value is the empty string. -/
theorem getProp_returns_any_present_value_witness :
    getProp ⟨[⟨"DTSTART", some ""⟩]⟩ "DTSTART" = some "" ∧
    processEvent ⟨[⟨"DTSTART", some ""⟩, ⟨"DTEND", some "20220921T151530Z"⟩]⟩
      = .error .timestampParse :=
  getProp_returns_any_present_value [⟨"DTSTART", some ""⟩] "DTSTART"
    ⟨"DTSTART", some ""⟩ "" (by decide) rfl

theorem processEvent_missing_marker (e : IcalEvent)
    (h : getProp e "DTSTART" = none ∨ getProp e "DTEND" = none) :
    processEvent e = .ok none := by
  rcases h with h | h
  · simp [processEvent, h]
  · cases hs : getProp e "DTSTART" <;> simp [processEvent, hs, h]

theorem collectEventResults_skip (e : IcalEvent) (he : processEvent e = .ok none) :
    ∀ l1 l2 : List IcalEvent,
      (collectEventResults (l1 ++ e :: l2)).map (fun l => l.filterMap id)
        = (collectEventResults (l1 ++ l2)).map (fun l => l.filterMap id) := by
  intro l1
  induction l1 with
  | nil =>
    intro l2
    simp only [List.nil_append, collectEventResults, he]
    cases h2 : collectEventResults l2 with
    | error err => rfl
    | ok l => simp [Except.map]
  | cons a t ih =>
    intro l2
    have hmap := ih l2
    simp only [List.cons_append, collectEventResults, List.append_eq]
    cases ha : processEvent a with
    | error err => rfl
    | ok s =>
      cases h1 : collectEventResults (t ++ e :: l2) with
      | error err1 =>
        cases h2 : collectEventResults (t ++ l2) with
        | error err2 => rw [h1] at hmap
        | ok l' =>
          rw [h1, h2] at hmap
          simp [Except.map] at hmap
      | ok l =>
        cases h2 : collectEventResults (t ++ l2) with
        | error err2 =>
          rw [h1, h2] at hmap
          simp [Except.map] at hmap
        | ok l' =>
          rw [h1, h2] at hmap
          simp only [Except.map, Except.ok.injEq] at hmap
          cases s with
          | none => simp [Except.map, hmap]
          | some x => simp [Except.map, hmap]

theorem calendarSummaries_eq_map (c : IcalCalendar) :
    calendarSummaries c = (collectEventResults c.events).map (fun l => l.filterMap id) := by
  cases h : collectEventResults c.events <;> simp [calendarSummaries, h, Except.map]

theorem calendarSummaries_skip (e : IcalEvent) (he : processEvent e = .ok none)
    (l1 l2 : List IcalEvent) :
    calendarSummaries ⟨l1 ++ e :: l2⟩ = calendarSummaries ⟨l1 ++ l2⟩ := by
  rw [calendarSummaries_eq_map, calendarSummaries_eq_map]
  exact collectEventResults_skip e he l1 l2

theorem collectCalendars_congr_middle (c c' : IcalCalendar)
    (h : calendarSummaries c = calendarSummaries c') :
    ∀ cals1 cals2 : List IcalCalendar,
      collectCalendars (cals1 ++ c :: cals2) = collectCalendars (cals1 ++ c' :: cals2) := by
  intro cals1
  induction cals1 with
  | nil => intro cals2; simp only [List.nil_append, collectCalendars, h]
  | cons a t ih => intro cals2; simp only [List.cons_append, collectCalendars, List.append_eq, ih cals2]

/-- C3: an event lacking a start or an end marker is excluded from the
output sequence while the pipeline continues: the report over any input
containing such an event — including the filtered, sorted summaries and
their aggregate duration — is the same as over the input with that event
removed. -/
theorem missing_marker_event_dropped
    (cals1 cals2 : List IcalCalendar) (evs1 evs2 : List IcalEvent) (e : IcalEvent)
    (month : Option Nat) (year : Option Int)
    (h : getProp e "DTSTART" = none ∨ getProp e "DTEND" = none) :
    reportSummaries (cals1 ++ ⟨evs1 ++ e :: evs2⟩ :: cals2) month year
      = reportSummaries (cals1 ++ ⟨evs1 ++ evs2⟩ :: cals2) month year ∧
    (reportSummaries (cals1 ++ ⟨evs1 ++ e :: evs2⟩ :: cals2) month year).map calc_total_duration
      = (reportSummaries (cals1 ++ ⟨evs1 ++ evs2⟩ :: cals2) month year).map calc_total_duration := by
  have hcal : calendarSummaries ⟨evs1 ++ e :: evs2⟩ = calendarSummaries ⟨evs1 ++ evs2⟩ :=
    calendarSummaries_skip e (processEvent_missing_marker e h) evs1 evs2
  have hcc := collectCalendars_congr_middle _ _ hcal cals1 cals2
  have heq : reportSummaries (cals1 ++ ⟨evs1 ++ e :: evs2⟩ :: cals2) month year
      = reportSummaries (cals1 ++ ⟨evs1 ++ evs2⟩ :: cals2) month year := by
    simp only [reportSummaries, flattenEvents, hcc]
  exact ⟨heq, by rw [heq]⟩

/-- Witness for `missing_marker_event_dropped`: a single calendar whose
only event has no properties at all. -/
theorem missing_marker_event_dropped_witness :
    reportSummaries ([] ++ (⟨[] ++ (⟨[]⟩ : IcalEvent) :: []⟩ : IcalCalendar) :: []) none none
      = reportSummaries ([] ++ (⟨([] ++ [] : List IcalEvent)⟩ : IcalCalendar) :: []) none none ∧
    (reportSummaries ([] ++ (⟨[] ++ (⟨[]⟩ : IcalEvent) :: []⟩ : IcalCalendar) :: []) none none).map calc_total_duration
      = (reportSummaries ([] ++ (⟨([] ++ [] : List IcalEvent)⟩ : IcalCalendar) :: []) none none).map calc_total_duration :=
  missing_marker_event_dropped [] [] [] [] ⟨[]⟩ none none (Or.inl rfl)

theorem processEvent_parse_failure (e : IcalEvent) (vs ve : String)
    (hs : getProp e "DTSTART" = some vs) (he : getProp e "DTEND" = some ve)
    (hfail : parse_from_rfc3339 (hypentate_dttime vs) = none
      ∨ parse_from_rfc3339 (hypentate_dttime ve) = none) :
    processEvent e = .error .timestampParse := by
  rcases hfail with h | h
  · simp [processEvent, hs, he, h]
  · cases hp : parse_from_rfc3339 (hypentate_dttime vs) <;>
      simp [processEvent, hs, he, hp, h]

theorem collectEventResults_error (e : IcalEvent)
    (he : processEvent e = .error .timestampParse) :
    ∀ l1 l2 : List IcalEvent,
      collectEventResults (l1 ++ e :: l2) = .error .timestampParse := by
  intro l1
  induction l1 with
  | nil => intro l2; simp [collectEventResults, he]
  | cons a t ih =>
    intro l2
    simp only [List.cons_append, collectEventResults, List.append_eq, ih l2]
    cases ha : processEvent a with
    | error err => cases err; rfl
    | ok s => rfl

theorem collectCalendars_error (c : IcalCalendar)
    (hc : calendarSummaries c = .error .timestampParse) :
    ∀ cals1 cals2 : List IcalCalendar,
      collectCalendars (cals1 ++ c :: cals2) = .error .timestampParse := by
  intro cals1
  induction cals1 with
  | nil => intro cals2; simp [collectCalendars, hc]
  | cons a t ih =>
    intro cals2
    simp only [List.cons_append, collectCalendars, List.append_eq, ih cals2]
    cases ha : calendarSummaries a with
    | error err => cases err; rfl
    | ok s => rfl

/-- C4: if any event has both markers present but either marker's
normalized token fails to parse, the whole report computation returns an
error and no output sequence is produced — this failure is not recovered
per event. -/
theorem parse_failure_aborts_report
    (cals1 cals2 : List IcalCalendar) (evs1 evs2 : List IcalEvent) (e : IcalEvent)
    (month : Option Nat) (year : Option Int) (vs ve : String)
    (hs : getProp e "DTSTART" = some vs) (he : getProp e "DTEND" = some ve)
    (hfail : parse_from_rfc3339 (hypentate_dttime vs) = none
      ∨ parse_from_rfc3339 (hypentate_dttime ve) = none) :
    reportSummaries (cals1 ++ ⟨evs1 ++ e :: evs2⟩ :: cals2) month year
        = .error .timestampParse ∧
    ∀ out, reportSummaries (cals1 ++ ⟨evs1 ++ e :: evs2⟩ :: cals2) month year ≠ .ok out := by
  have h1 := processEvent_parse_failure e vs ve hs he hfail
  have h2 : calendarSummaries ⟨evs1 ++ e :: evs2⟩ = .error .timestampParse := by
    simp [calendarSummaries, collectEventResults_error e h1 evs1 evs2]
  have h3 := collectCalendars_error _ h2 cals1 cals2
  have h4 : reportSummaries (cals1 ++ ⟨evs1 ++ e :: evs2⟩ :: cals2) month year
      = .error .timestampParse := by
    simp [reportSummaries, flattenEvents, h3]
  refine ⟨h4, fun out hout => ?_⟩
  rw [h4] at hout
  cases hout

/-- Witness for `parse_failure_aborts_report`: a single calendar whose
only event carries the unparseable token "garbage" in both markers. -/
theorem parse_failure_aborts_report_witness :
    reportSummaries
        ([] ++ (⟨[] ++ (⟨[⟨"DTSTART", some "garbage"⟩, ⟨"DTEND", some "garbage"⟩]⟩ : IcalEvent) :: []⟩ : IcalCalendar) :: [])
        none none
      = .error .timestampParse ∧
    ∀ out, reportSummaries
        ([] ++ (⟨[] ++ (⟨[⟨"DTSTART", some "garbage"⟩, ⟨"DTEND", some "garbage"⟩]⟩ : IcalEvent) :: []⟩ : IcalCalendar) :: [])
        none none ≠ .ok out :=
  parse_failure_aborts_report [] [] [] [] ⟨[⟨"DTSTART", some "garbage"⟩, ⟨"DTEND", some "garbage"⟩]⟩
    none none "garbage" "garbage" rfl rfl (Or.inl (by decide))

theorem dayLE_trans : ∀ a b c : EventSummary,
    (fun a b : EventSummary => (decide (a.date_start ≤ b.date_start))) a b →
    (fun a b : EventSummary => (decide (a.date_start ≤ b.date_start))) b c →
    (fun a b : EventSummary => (decide (a.date_start ≤ b.date_start))) a c := by
  intro a b c hab hbc
  simp only [decide_eq_true_eq] at hab hbc ⊢
  omega

theorem dayLE_total : ∀ a b : EventSummary,
    ((fun a b : EventSummary => (decide (a.date_start ≤ b.date_start))) a b
      || (fun a b : EventSummary => (decide (a.date_start ≤ b.date_start))) b a) := by
  intro a b
  simp only [Bool.or_eq_true, decide_eq_true_eq]
  omega

/-- C6: the sort stage is a stable ascending sort by `date_start` (the
day-of-month of the start instant): the result is ordered by
`date_start`, is a permutation of the input, summaries with equal
`date_start` keep their relative input order (their subsequences under
any fixed day filter coincide), and in particular a pair of summaries
with equal `date_start` — say one from January and one from March —
stays in input order rather than chronological order. -/
theorem sortStage_stable_sort_by_day (l : List EventSummary) :
    List.Pairwise (fun a b => a.date_start ≤ b.date_start) (sortStage l) ∧
    List.Perm (sortStage l) l ∧
    (∀ k : Nat, (sortStage l).filter (fun e => e.date_start == k)
        = l.filter (fun e => e.date_start == k)) ∧
    (∀ a b : EventSummary, a.date_start = b.date_start → sortStage [a, b] = [a, b]) := by
  refine ⟨?_, List.mergeSort_perm l _, ?_, ?_⟩
  · have h := List.sorted_mergeSort dayLE_trans dayLE_total l
    exact h.imp (fun hab => by simpa using hab)
  · intro k
    have hpw : List.Pairwise
        (fun a b : EventSummary => ((fun a b : EventSummary => (decide (a.date_start ≤ b.date_start))) a b = true))
        (l.filter (fun e => e.date_start == k)) := by
      apply List.pairwise_of_forall_mem_list
      intro a ha b hb
      have ha' := List.of_mem_filter ha
      have hb' := List.of_mem_filter hb
      simp only [beq_iff_eq] at ha' hb'
      simp [ha', hb']
    have hsub2 : List.Sublist (l.filter (fun e => e.date_start == k))
        (List.mergeSort l (fun a b => a.date_start ≤ b.date_start)) :=
      List.sublist_mergeSort dayLE_trans dayLE_total hpw (List.filter_sublist l)
    have hself : (l.filter (fun e => e.date_start == k)).filter (fun e => e.date_start == k)
        = l.filter (fun e => e.date_start == k) := by
      apply List.filter_eq_self.mpr
      intro a ha
      exact (List.mem_filter.mp ha).2
    have hsub3 : List.Sublist (l.filter (fun e => e.date_start == k))
        ((List.mergeSort l (fun a b => a.date_start ≤ b.date_start)).filter (fun e => e.date_start == k)) := by
      rw [← hself]
      exact hsub2.filter _
    have hlen : ((List.mergeSort l (fun a b => a.date_start ≤ b.date_start)).filter (fun e => e.date_start == k)).length
        = (l.filter (fun e => e.date_start == k)).length :=
      ((List.mergeSort_perm l _).filter _).length_eq
    exact (hsub3.eq_of_length hlen.symm).symm
  · intro a b hab
    apply List.mergeSort_of_sorted
    constructor
    · intro x hx
      cases hx with
      | head => simp [hab]
      | tail _ hx => cases hx
    · simp

/-- Witness for `sortStage_stable_sort_by_day`: two concrete summaries
with `date_start = 5`, one in January and one in March, stay in input
order. -/
theorem sortStage_stable_sort_by_day_witness :
    sortStage [⟨"05-01-2022", "10:00 - 11:00", "01:00:00", 5, 1, 2022, 3600⟩,
               ⟨"05-03-2022", "10:00 - 11:00", "01:00:00", 5, 3, 2022, 3600⟩]
      = [⟨"05-01-2022", "10:00 - 11:00", "01:00:00", 5, 1, 2022, 3600⟩,
         ⟨"05-03-2022", "10:00 - 11:00", "01:00:00", 5, 3, 2022, 3600⟩] :=
  (sortStage_stable_sort_by_day []).2.2.2
    ⟨"05-01-2022", "10:00 - 11:00", "01:00:00", 5, 1, 2022, 3600⟩
    ⟨"05-03-2022", "10:00 - 11:00", "01:00:00", 5, 3, 2022, 3600⟩ rfl

theorem beq_decide_comm {α : Type} [DecidableEq α] [BEq α] [LawfulBEq α] (a b : α) :
    (a == b) = decide (b = a) := by
  by_cases h : b = a
  · subst h; simp
  · have h2 : a ≠ b := fun hh => h hh.symm
    simp [h, h2]

/-- C7: the filter stage retains exactly the summaries satisfying
"(month filter absent or `month_start` equals it) and (year filter
absent or `year_start` equals it)", preserving relative order (it is a
`List.filter`); with both filters absent every summary is retained. -/
theorem filterStage_retains_conjunction (l : List EventSummary)
    (month : Option Nat) (year : Option Int) :
    filterStage month year l
      = l.filter (fun e => decide ((month = none ∨ month = some e.month_start)
          ∧ (year = none ∨ year = some e.year_start))) ∧
    filterStage none none l = l := by
  constructor
  · unfold filterStage
    rw [List.filter_filter]
    apply List.filter_congr
    intro e he
    rcases month with _ | m <;> rcases year with _ | y <;>
      simp [beq_decide_comm, Bool.and_comm]
  · simp [filterStage]

/-- C8: `fmt_duration` renders `HH:MM:SS` with `HH = (s/60)/60`,
`MM = (s/60) mod 60`, `SS = s mod 60` under truncating division and
Rust's dividend-signed remainder, each component zero-padded to a
minimum width of 2 (the sign counting toward the width); for
non-negative inputs the components are the usual `s/3600`,
`s/60 mod 60`, `s mod 60` of natural arithmetic; 30600 renders as
"08:30:00", and negative inputs produce fixed deterministic strings
such as "-1:-1:-1" for -3661 and "00:00:-1" for -1. -/
theorem fmt_duration_components (s : Int)
    (hrange : -(2 ^ 63) ≤ s ∧ s < 2 ^ 63) :
    fmt_duration s = padInt2 ((s.tdiv 60).tdiv 60) ++ ":"
        ++ padInt2 ((s.tdiv 60).tmod 60) ++ ":" ++ padInt2 (s.tmod 60) ∧
    (0 ≤ s → fmt_duration s = padNat2 (s.toNat / 3600) ++ ":"
        ++ padNat2 (s.toNat / 60 % 60) ++ ":" ++ padNat2 (s.toNat % 60)) ∧
    fmt_duration 30600 = "08:30:00" ∧
    fmt_duration (-3661) = "-1:-1:-1" ∧
    fmt_duration (-1) = "00:00:-1" := by
  refine ⟨rfl, ?_, by decide, by decide, by decide⟩
  intro hpos
  obtain ⟨n, rfl⟩ := Int.eq_ofNat_of_zero_le hpos
  have h60 : (60 : Int) = ((60 : Nat) : Int) := rfl
  have htd : ∀ a b : Nat, ((a : Int).tdiv (b : Int)) = ((a / b : Nat) : Int) :=
    fun a b => (Int.ofNat_tdiv a b).symm
  have htm : ∀ a b : Nat, ((a : Int).tmod (b : Int)) = ((a % b : Nat) : Int) :=
    fun a b => (Int.ofNat_tmod a b).symm
  have hpad : ∀ m : Nat, padInt2 ((m : Nat) : Int) = padNat2 m := by
    intro m
    simp [padInt2, Int.natAbs_ofNat]
  rw [fmt_duration, h60, htd n 60, htd (n / 60) 60, htm (n / 60) 60, htm n 60,
    hpad, hpad, hpad, Int.toNat_ofNat, Nat.div_div_eq_div_mul]

/-- Witness for `fmt_duration_components` at the concrete in-range input
30600. -/
theorem fmt_duration_components_witness :
    fmt_duration 30600 = padInt2 (((30600 : Int).tdiv 60).tdiv 60) ++ ":"
        ++ padInt2 (((30600 : Int).tdiv 60).tmod 60) ++ ":" ++ padInt2 ((30600 : Int).tmod 60) ∧
    (0 ≤ (30600 : Int) → fmt_duration 30600 = padNat2 ((30600 : Int).toNat / 3600) ++ ":"
        ++ padNat2 ((30600 : Int).toNat / 60 % 60) ++ ":" ++ padNat2 ((30600 : Int).toNat % 60)) ∧
    fmt_duration 30600 = "08:30:00" ∧
    fmt_duration (-3661) = "-1:-1:-1" ∧
    fmt_duration (-1) = "00:00:-1" :=
  fmt_duration_components 30600 (by decide)

/-- C9: the aggregator is the sum of the `duration_sec` fields under
ordinary integer addition: it returns 0 on the empty sequence (which the
formatter renders as "00:00:00"), and satisfies the usual sum equations. -/
theorem calc_total_duration_is_sum (l : List EventSummary) :
    calc_total_duration [] = 0 ∧
    fmt_duration 0 = "00:00:00" ∧
    calc_total_duration l = (l.map (fun e => e.duration_sec)).sum ∧
    (∀ (e : EventSummary) (t : List EventSummary),
        calc_total_duration (e :: t) = e.duration_sec + calc_total_duration t) := by
  refine ⟨rfl, by decide, rfl, ?_⟩
  intro e t
  simp [calc_total_duration]
